import Mathlib

/-!
Shallow embedding of `treq/testing.py`: a stub HTTP client (`StubTreq`)
with two matching strategies, an association list (`ResponseMapping`)
and an ordered sequence (`ResponseSequence`), dispensing canned
`StubResponse` values.

Python dictionaries are modelled as association lists `Dict v` over a
value type `v` with decidable equality; Python dict equality (`==` on
dicts, which is key-set plus per-key value equality, order insensitive)
is modelled by `dictEq`.  Python methods that never assign to `self`
fields are embedded as state-passing functions returning the state
unchanged.  An exception raised by a method is modelled by
`Except.error` carrying the data the exception message reports.
-/

deriving instance DecidableEq for Except

/-- Python `str.upper` on a string: uppercase every character. -/
def strUpper (s : String) : String := ⟨s.data.map Char.toUpper⟩

/-- A Python dictionary with string keys, as an association list. -/
abbrev Dict (v : Type) := List (String × v)

/-- Lookup of a key in a dictionary: the first binding wins. -/
def dget {v : Type} (m : Dict v) (k : String) : Option v :=
  match m with
  | [] => none
  | (k0, v0) :: rest => if k0 = k then some v0 else dget rest k

/-- Python dict equality: both dicts agree on every key either one binds. -/
def dictEq {v : Type} [DecidableEq v] (m1 m2 : Dict v) : Bool :=
  m1.all (fun p => dget m2 p.1 == some p.2) &&
  m2.all (fun p => dget m1 p.1 == some p.2)

/-- Python dict invariant: keys are pairwise distinct. -/
def keysNodup {v : Type} (m : Dict v) : Prop := (m.map Prod.fst).Nodup

instance {v : Type} (m : Dict v) : Decidable (keysNodup m) :=
  inferInstanceAs (Decidable (m.map Prod.fst).Nodup)

/-- Class `StubResponse`: a fake pre-built response with a status code,
a headers dictionary, and optional body data. -/
structure StubResponse (v : Type) where
  code : Int
  headers : Dict v
  data : Option v
  deriving DecidableEq

/-- Method `StubResponse.__eq__`: same class, and `code`, `headers` and `_data`
all compare equal (headers by dict equality). -/
def stubResponseEq {v : Type} [DecidableEq v] (a b : StubResponse v) : Bool :=
  a.code == b.code && dictEq a.headers b.headers && a.data == b.data

/-- Method `StubResponse.__ne__`: `not self == other`. -/
def stubResponseNe {v : Type} [DecidableEq v] (a b : StubResponse v) : Bool :=
  ! stubResponseEq a b

/-- The request key tuple `(method, url, kwargs)` used by both strategies. -/
structure ReqDesc (v : Type) where
  method : String
  url : String
  kwargs : Dict v
  deriving DecidableEq

/-- Python `==` on two request tuples: componentwise, with dict equality
on the kwargs component. -/
def reqEq {v : Type} [DecidableEq v] (a b : ReqDesc v) : Bool :=
  a.method == b.method && a.url == b.url && dictEq a.kwargs b.kwargs

/-- One stub: a request tuple paired with the response mapped to it. -/
abbrev Entry (v : Type) := ReqDesc v × StubResponse v

/-- The duplicate scan in `ResponseMapping.__init__`: for each entry, look
for a later entry with an equal request tuple; report the first such pair. -/
def findDup {v : Type} [DecidableEq v] :
    List (Entry v) → Option (Entry v × Entry v)
  | [] => none
  | item :: rest =>
    match rest.find? (fun itemagain => reqEq item.1 itemagain.1) with
    | some itemagain => some (item, itemagain)
    | none => findDup rest

/-- Method `ResponseMapping.__init__`: checks that each request appears only once;
raises (here: `Except.error` carrying both conflicting entries, which the
exception message reports in full) on a duplicate. -/
def mappingInit {v : Type} [DecidableEq v] (stubs : List (Entry v)) :
    Except (Entry v × Entry v) (List (Entry v)) :=
  match findDup stubs with
  | some p => Except.error p
  | none => Except.ok stubs

/-- Method `ResponseMapping.get_response`: scan the stubs in order, return the
response of the first entry whose request tuple equals
`(method, url, kwargs)`; raise `ValueError` (carrying the attempted
method, url and kwargs, which the message reports) if none matches. -/
def mappingGetResponse {v : Type} [DecidableEq v] (stubs : List (Entry v))
    (method url : String) (kwargs : Dict v) :
    Except (ReqDesc v) (StubResponse v) :=
  match stubs with
  | [] => Except.error ⟨method, url, kwargs⟩
  | (req, resp) :: rest =>
    if reqEq req ⟨method, url, kwargs⟩ then Except.ok resp
    else mappingGetResponse rest method url kwargs

/-- Method `ResponseMapping.get_response` with its state effect: the method body
assigns to no attribute of `self`, so the stub list after the call is the
stub list before it. -/
def mappingGetResponseS {v : Type} [DecidableEq v] (stubs : List (Entry v))
    (method url : String) (kwargs : Dict v) :
    Except (ReqDesc v) (StubResponse v) × List (Entry v) :=
  (mappingGetResponse stubs method url kwargs, stubs)

/-- Method `ResponseSequence.get_response`: if the list is non-empty and the first
entry has a request tuple equal to `(method, url, kwargs)`, return its response;
otherwise raise `ValueError` carrying the attempted request. -/
def seqGetResponse {v : Type} [DecidableEq v] (stubs : List (Entry v))
    (method url : String) (kwargs : Dict v) :
    Except (ReqDesc v) (StubResponse v) :=
  match stubs with
  | (expected_req, resp) :: _ =>
    if reqEq expected_req ⟨method, url, kwargs⟩ then Except.ok resp
    else Except.error ⟨method, url, kwargs⟩
  | [] => Except.error ⟨method, url, kwargs⟩

/-- Method `ResponseSequence.get_response` with its state effect: the method body
assigns to no attribute of `self` (in particular it never pops
`self.stubs[0]`), so the stub list after the call is the stub list before
it. -/
def seqGetResponseS {v : Type} [DecidableEq v] (stubs : List (Entry v))
    (method url : String) (kwargs : Dict v) :
    Except (ReqDesc v) (StubResponse v) × List (Entry v) :=
  (seqGetResponse stubs method url kwargs, stubs)

/-- The two strategy classes a `StubTreq` may hold as its `stubs`. -/
inductive Strategy (v : Type) where
  | mapping : List (Entry v) → Strategy v
  | sequence : List (Entry v) → Strategy v
  deriving DecidableEq

/-- Duck-typed `self.stubs.get_response(...)` dispatch, with state. -/
def strategyGetResponseS {v : Type} [DecidableEq v] :
    Strategy v → String → String → Dict v →
    Except (ReqDesc v) (StubResponse v) × Strategy v
  | Strategy.mapping stubs, m, u, kw =>
    let r := mappingGetResponseS stubs m u kw
    (r.1, Strategy.mapping r.2)
  | Strategy.sequence stubs, m, u, kw =>
    let r := seqGetResponseS stubs m u kw
    (r.1, Strategy.sequence r.2)

/-- The value `self.stubs.get_response(...)` returns (or the exception it
raises). -/
def strategyGetResponse {v : Type} [DecidableEq v] (s : Strategy v)
    (m u : String) (kw : Dict v) : Except (ReqDesc v) (StubResponse v) :=
  (strategyGetResponseS s m u kw).1

/-- Class `StubTreq`: the facade holding a configured strategy as `self.stubs`. -/
structure StubTreq (v : Type) where
  stubs : Strategy v
  deriving DecidableEq

/-- Outcome of `StubTreq.request`: either the exception of the strategy
propagates before any deferred is built (`raised`), or `succeed(resp)` is
returned, an already-fired deferred (`succeeded`). -/
inductive ReqOutcome (v : Type) where
  | raised : ReqDesc v → ReqOutcome v
  | succeeded : StubResponse v → ReqOutcome v
  deriving DecidableEq

/-- Method `StubTreq.request`: `resp = self.stubs.get_response(method, url,
**kwargs); return succeed(resp)`.  The method is passed through verbatim. -/
def stubRequest {v : Type} [DecidableEq v] (t : StubTreq v)
    (method url : String) (kwargs : Dict v) : ReqOutcome v × StubTreq v :=
  match strategyGetResponseS t.stubs method url kwargs with
  | (Except.error e, s) => (ReqOutcome.raised e, ⟨s⟩)
  | (Except.ok resp, s) => (ReqOutcome.succeeded resp, ⟨s⟩)

/-- Method `StubTreq.put`: delegates as `return self.request("PUT", url, data=data, **kwargs)`. -/
def stubPut {v : Type} [DecidableEq v] (t : StubTreq v) (url : String)
    (data : v) (kwargs : Dict v) : ReqOutcome v × StubTreq v :=
  stubRequest t "PUT" url (("data", data) :: kwargs)

/-- Method `StubTreq.post`: delegates as `return self.request("POST", url, data=data, **kwargs)`. -/
def stubPost {v : Type} [DecidableEq v] (t : StubTreq v) (url : String)
    (data : v) (kwargs : Dict v) : ReqOutcome v × StubTreq v :=
  stubRequest t "POST" url (("data", data) :: kwargs)

/-- Method `StubTreq.__getattr__`: for `get`, `head`, `delete` return
a partial application of `request` to the uppercased name; otherwise raise
`AttributeError` whose message names the attribute. -/
def stubGetattr {v : Type} [DecidableEq v] (t : StubTreq v) (name : String) :
    Except String (String → Dict v → ReqOutcome v × StubTreq v) :=
  if name = "get" ∨ name = "head" ∨ name = "delete" then
    Except.ok (stubRequest t (strUpper name))
  else
    Except.error ("StubTreq has no attribute " ++ name)

/-- Arguments of one `get_response` call, for replaying call sequences. -/
structure Query (v : Type) where
  method : String
  url : String
  kwargs : Dict v
  deriving DecidableEq

/-- Replay a sequence of lookups against a `ResponseMapping`, threading the
stub-list state through the stateful calls. -/
def runMappingLookups {v : Type} [DecidableEq v] (stubs : List (Entry v)) :
    List (Query v) → List (Except (ReqDesc v) (StubResponse v)) × List (Entry v)
  | [] => ([], stubs)
  | q :: qs =>
    let step := mappingGetResponseS stubs q.method q.url q.kwargs
    let rest := runMappingLookups step.2 qs
    (step.1 :: rest.1, rest.2)

/-- Replay a sequence of lookups against a `ResponseSequence`, threading the
stub-list state through the stateful calls. -/
def runSequenceLookups {v : Type} [DecidableEq v] (stubs : List (Entry v)) :
    List (Query v) → List (Except (ReqDesc v) (StubResponse v)) × List (Entry v)
  | [] => ([], stubs)
  | q :: qs =>
    let step := seqGetResponseS stubs q.method q.url q.kwargs
    let rest := runSequenceLookups step.2 qs
    (step.1 :: rest.1, rest.2)

/-! ### Helper lemmas -/

theorem dget_eq_some_of_nodup {v : Type} (m : Dict v) (hm : keysNodup m) :
    ∀ p ∈ m, dget m p.1 = some p.2 := by
  induction m with
  | nil => intro p hp; cases hp
  | cons hd tl ih =>
    intro p hp
    have hnd : hd.1 ∉ tl.map Prod.fst ∧ keysNodup tl := by
      simpa [keysNodup, List.nodup_cons] using hm
    rcases List.mem_cons.1 hp with rfl | hp
    · simp [dget]
    · have hne : hd.1 ≠ p.1 := by
        intro hcontra
        exact hnd.1 (hcontra ▸ List.mem_map_of_mem Prod.fst hp)
      have := ih hnd.2 p hp
      simpa [dget, hne] using this

theorem dictEq_refl {v : Type} [DecidableEq v] (m : Dict v)
    (hm : keysNodup m) : dictEq m m = true := by
  have h : ∀ p ∈ m, (dget m p.1 == some p.2) = true := by
    intro p hp
    simpa [beq_iff_eq] using dget_eq_some_of_nodup m hm p hp
  simp only [dictEq, Bool.and_eq_true, List.all_eq_true]
  exact ⟨h, h⟩

theorem reqEq_false_of_method_ne {v : Type} [DecidableEq v]
    (a b : ReqDesc v) (h : a.method ≠ b.method) : reqEq a b = false := by
  simp [reqEq, h]

theorem mappingGetResponse_ok_iff {v : Type} [DecidableEq v]
    (stubs : List (Entry v)) (m u : String) (kw : Dict v) (r : StubResponse v) :
    mappingGetResponse stubs m u kw = Except.ok r ↔
      ∃ e, stubs.find? (fun e => reqEq e.1 ⟨m, u, kw⟩) = some e ∧ e.2 = r := by
  induction stubs with
  | nil => simp [mappingGetResponse]
  | cons hd tl ih =>
    obtain ⟨req, resp⟩ := hd
    by_cases hq : reqEq req ⟨m, u, kw⟩ = true
    · simp [mappingGetResponse, hq, List.find?_cons_of_pos, eq_comm]
    · have hq' : reqEq req ⟨m, u, kw⟩ = false := by
        simpa using hq
      simp only [mappingGetResponse, hq', if_neg, Bool.false_eq_true,
        not_false_iff, ih]
      rw [List.find?_cons_of_neg _ (by simpa using hq)]

theorem mappingGetResponse_error_iff {v : Type} [DecidableEq v]
    (stubs : List (Entry v)) (m u : String) (kw : Dict v) :
    mappingGetResponse stubs m u kw = Except.error ⟨m, u, kw⟩ ↔
      ∀ e ∈ stubs, reqEq e.1 ⟨m, u, kw⟩ = false := by
  induction stubs with
  | nil => simp [mappingGetResponse]
  | cons hd tl ih =>
    obtain ⟨req, resp⟩ := hd
    by_cases hq : reqEq req ⟨m, u, kw⟩ = true
    · simp [mappingGetResponse, hq]
    · have hq' : reqEq req ⟨m, u, kw⟩ = false := by
        simpa using hq
      simp [mappingGetResponse, hq', ih]

theorem findDup_eq_none_iff {v : Type} [DecidableEq v]
    (stubs : List (Entry v)) :
    findDup stubs = none ↔
      List.Pairwise (fun a b => reqEq a.1 b.1 = false) stubs := by
  induction stubs with
  | nil => simp [findDup]
  | cons item rest ih =>
    rw [List.pairwise_cons]
    cases hf : rest.find? (fun itemagain => reqEq item.1 itemagain.1) with
    | some e2 =>
      simp only [findDup, hf]
      constructor
      · intro h; cases h
      · rintro ⟨hall, -⟩
        have h1 : reqEq item.1 e2.1 = true := by
          simpa using List.find?_some hf
        have h2 : e2 ∈ rest := List.mem_of_find?_eq_some hf
        rw [hall e2 h2] at h1
        cases h1
    | none =>
      simp only [findDup, hf, ih]
      have hall : ∀ e ∈ rest, reqEq item.1 e.1 = false := by
        intro e he
        have := List.find?_eq_none.1 hf e he
        simpa using this
      constructor
      · intro h; exact ⟨hall, h⟩
      · rintro ⟨-, h⟩; exact h

theorem findDup_some_spec {v : Type} [DecidableEq v]
    (stubs : List (Entry v)) (e1 e2 : Entry v)
    (h : findDup stubs = some (e1, e2)) :
    reqEq e1.1 e2.1 = true ∧
      ∃ i j, i < j ∧ stubs.get? i = some e1 ∧ stubs.get? j = some e2 := by
  induction stubs with
  | nil => cases h
  | cons item rest ih =>
    cases hf : rest.find? (fun itemagain => reqEq item.1 itemagain.1) with
    | some e2' =>
      simp only [findDup, hf, Option.some.injEq, Prod.mk.injEq] at h
      obtain ⟨h1, h2⟩ := h
      subst h1; subst h2
      refine ⟨by simpa using List.find?_some hf, ?_⟩
      obtain ⟨n, hn⟩ := List.get?_of_mem (List.mem_of_find?_eq_some hf)
      exact ⟨0, n + 1, Nat.succ_pos n, rfl, by simpa using hn⟩
    | none =>
      simp only [findDup, hf] at h
      obtain ⟨hr, i, j, hij, hi, hj⟩ := ih h
      exact ⟨hr, i + 1, j + 1, Nat.succ_lt_succ hij, by simpa using hi,
        by simpa using hj⟩

/-! ### Claim theorems -/

/-- C6: for all `StubResponse` values `a` and `b`, `a == b` holds iff the
status code, headers and body of `a` and `b` are all equal (headers by dict
equality); `a == a` always holds (headers being a dict, its keys are
distinct); and `a != b` is exactly the negation of `a == b`. -/
theorem stubResponseEq_spec {v : Type} [DecidableEq v] (a b : StubResponse v) :
    (stubResponseEq a b = true ↔
      (a.code = b.code ∧ dictEq a.headers b.headers = true ∧ a.data = b.data))
    ∧ (keysNodup a.headers → stubResponseEq a a = true)
    ∧ stubResponseNe a b = ! stubResponseEq a b := by
  refine ⟨?_, ?_, rfl⟩
  · simp [stubResponseEq, Bool.and_eq_true, beq_iff_eq, and_assoc]
  · intro h
    simp [stubResponseEq, dictEq_refl _ h]

/-- Witness for C6 at a concrete response with distinct header keys. -/
theorem stubResponseEq_spec_witness :
    keysNodup ([("x", 1)] : Dict Nat) ∧
      stubResponseEq (⟨200, [("x", 1)], some 2⟩ : StubResponse Nat)
        ⟨200, [("x", 1)], some 2⟩ = true :=
  ⟨by decide, (stubResponseEq_spec ⟨200, [("x", 1)], some 2⟩
    ⟨200, [("x", 1)], some 2⟩).2.1 (by decide)⟩

/-- C3: `ResponseMapping` construction fails iff two entries at distinct
positions have equal request tuples (responses do not matter), the raised
error carries both conflicting entries, and with pairwise-distinct request
tuples construction succeeds with the stubs kept. -/
theorem mappingInit_duplicate_spec {v : Type} [DecidableEq v]
    (stubs : List (Entry v)) :
    ((∃ p, mappingInit stubs = Except.error p) ↔
      ¬ List.Pairwise (fun a b => reqEq a.1 b.1 = false) stubs)
    ∧ (List.Pairwise (fun a b => reqEq a.1 b.1 = false) stubs →
        mappingInit stubs = Except.ok stubs)
    ∧ (∀ e1 e2, mappingInit stubs = Except.error (e1, e2) →
        reqEq e1.1 e2.1 = true ∧
          ∃ i j, i < j ∧ stubs.get? i = some e1 ∧ stubs.get? j = some e2) := by
  refine ⟨⟨?_, ?_⟩, ?_, ?_⟩
  · rintro ⟨p, hp⟩ hpw
    have hn := (findDup_eq_none_iff stubs).2 hpw
    simp [mappingInit, hn] at hp
  · intro hnp
    cases hfd : findDup stubs with
    | none => exact absurd ((findDup_eq_none_iff stubs).1 hfd) hnp
    | some p => exact ⟨p, by simp [mappingInit, hfd]⟩
  · intro hpw
    simp [mappingInit, (findDup_eq_none_iff stubs).2 hpw]
  · intro e1 e2 h
    cases hfd : findDup stubs with
    | none => simp [mappingInit, hfd] at h
    | some p =>
      have hp : p = (e1, e2) := by simpa [mappingInit, hfd] using h
      exact findDup_some_spec stubs e1 e2 (hp ▸ hfd)

/-- Witness for C3 at two entries sharing a request tuple but with
different responses. -/
theorem mappingInit_duplicate_spec_witness :
    reqEq (⟨"GET", "u", [("a", 1)]⟩ : ReqDesc Nat) ⟨"GET", "u", [("a", 1)]⟩ = true ∧
      ∃ i j, i < j ∧
        ([(⟨"GET", "u", [("a", 1)]⟩, ⟨200, [], some 0⟩),
          (⟨"GET", "u", [("a", 1)]⟩, ⟨201, [], some 1⟩)] : List (Entry Nat)).get? i =
          some (⟨"GET", "u", [("a", 1)]⟩, ⟨200, [], some 0⟩) ∧
        ([(⟨"GET", "u", [("a", 1)]⟩, ⟨200, [], some 0⟩),
          (⟨"GET", "u", [("a", 1)]⟩, ⟨201, [], some 1⟩)] : List (Entry Nat)).get? j =
          some (⟨"GET", "u", [("a", 1)]⟩, ⟨201, [], some 1⟩) :=
  (mappingInit_duplicate_spec
      [(⟨"GET", "u", [("a", 1)]⟩, ⟨200, [], some 0⟩),
       (⟨"GET", "u", [("a", 1)]⟩, ⟨201, [], some 1⟩)]).2.2
    (⟨"GET", "u", [("a", 1)]⟩, ⟨200, [], some 0⟩)
    (⟨"GET", "u", [("a", 1)]⟩, ⟨201, [], some 1⟩) (by decide)

/-- C4: `ResponseMapping.get_response` returns `ok r` exactly when the first
entry in scan order whose request tuple equals `(method, url, kwargs)` has
response `r`, and fails with an error carrying the attempted method, url and
kwargs exactly when no entry has an equal request tuple. -/
theorem mappingGetResponse_first_match {v : Type} [DecidableEq v]
    (stubs : List (Entry v)) (m u : String) (kw : Dict v) :
    (∀ r, mappingGetResponse stubs m u kw = Except.ok r ↔
      ∃ e, stubs.find? (fun e => reqEq e.1 ⟨m, u, kw⟩) = some e ∧ e.2 = r)
    ∧ (mappingGetResponse stubs m u kw = Except.error ⟨m, u, kw⟩ ↔
      ∀ e ∈ stubs, reqEq e.1 ⟨m, u, kw⟩ = false) :=
  ⟨fun r => mappingGetResponse_ok_iff stubs m u kw r,
   mappingGetResponse_error_iff stubs m u kw⟩

/-- Witness for C4: a successful second-entry lookup and a failing one. -/
theorem mappingGetResponse_first_match_witness :
    mappingGetResponse
        ([(⟨"GET", "a", []⟩, ⟨200, [], some 1⟩),
          (⟨"GET", "b", []⟩, ⟨201, [], some 2⟩)] : List (Entry Nat))
        "GET" "b" [] = Except.ok ⟨201, [], some 2⟩ ∧
      mappingGetResponse ([(⟨"GET", "a", []⟩, ⟨200, [], some 1⟩)] : List (Entry Nat))
        "POST" "a" [] = Except.error ⟨"POST", "a", []⟩ :=
  ⟨((mappingGetResponse_first_match _ "GET" "b" []).1 _).2
      ⟨(⟨"GET", "b", []⟩, ⟨201, [], some 2⟩), by decide, rfl⟩,
   (mappingGetResponse_first_match _ "POST" "a" []).2.2 (by decide)⟩

/-- C5: replaying any sequence of lookups against a `ResponseMapping`
leaves the stub list unchanged, and each lookup result is the pure
function of the original stub list and the arguments of that lookup, so
repeating a call with identical arguments returns an identical result. -/
theorem runMappingLookups_pure {v : Type} [DecidableEq v]
    (stubs : List (Entry v)) (qs : List (Query v)) :
    (runMappingLookups stubs qs).2 = stubs ∧
      (runMappingLookups stubs qs).1 =
        qs.map (fun q => mappingGetResponse stubs q.method q.url q.kwargs) := by
  induction qs with
  | nil => exact ⟨rfl, rfl⟩
  | cons q qs ih =>
    refine ⟨?_, ?_⟩ <;>
      simp [runMappingLookups, mappingGetResponseS, ih.1, ih.2]

/-- C9: replaying any sequence of lookups against a `ResponseSequence`
leaves the stub list unchanged, so every call is the pure function of the
original stub list (in particular each call compares the request against
the same first entry). -/
theorem runSequenceLookups_no_mutation {v : Type} [DecidableEq v]
    (stubs : List (Entry v)) (qs : List (Query v)) :
    (runSequenceLookups stubs qs).2 = stubs ∧
      (runSequenceLookups stubs qs).1 =
        qs.map (fun q => seqGetResponse stubs q.method q.url q.kwargs) := by
  induction qs with
  | nil => exact ⟨rfl, rfl⟩
  | cons q qs ih =>
    refine ⟨?_, ?_⟩ <;>
      simp [runSequenceLookups, seqGetResponseS, ih.1, ih.2]

/-- C1 (code behaviour at the failing input): with two stubs, a successful
first lookup does not consume the matched entry — the stub list is
returned unchanged — so the following lookup for the second stubbed
request raises instead of returning the second response. -/
theorem seqGetResponse_no_consumption_failing_input :
    (seqGetResponseS
        ([(⟨"GET", "http://a", []⟩, ⟨200, [], some 1⟩),
          (⟨"GET", "http://b", []⟩, ⟨201, [], some 2⟩)] : List (Entry Nat))
        "GET" "http://a" []) =
      (Except.ok ⟨200, [], some 1⟩,
        [(⟨"GET", "http://a", []⟩, ⟨200, [], some 1⟩),
         (⟨"GET", "http://b", []⟩, ⟨201, [], some 2⟩)])
    ∧ (seqGetResponseS
        ((seqGetResponseS
          ([(⟨"GET", "http://a", []⟩, ⟨200, [], some 1⟩),
            (⟨"GET", "http://b", []⟩, ⟨201, [], some 2⟩)] : List (Entry Nat))
          "GET" "http://a" []).2)
        "GET" "http://b" []).1 = Except.error ⟨"GET", "http://b", []⟩ :=
  ⟨by decide, by decide⟩

/-- C2 (counterexample): with a stub registered under method `"GET"`,
`request("get", url)` and `request("GET", url)` do not resolve to the same
stub entry: the former raises, the latter succeeds. -/
theorem stubRequest_case_sensitive_cex :
    (stubRequest (v := Nat)
        ⟨Strategy.mapping [(⟨"GET", "http://x", []⟩, ⟨200, [], some 7⟩)]⟩
        "get" "http://x" []).1 ≠
      (stubRequest (v := Nat)
        ⟨Strategy.mapping [(⟨"GET", "http://x", []⟩, ⟨200, [], some 7⟩)]⟩
        "GET" "http://x" []).1 :=
  by decide

/-- C2 (amended): `StubTreq.request` passes the method through verbatim, so
a request whose method string differs from the method of every stubbed entry —
even only in case — raises the no-match error instead of matching. -/
theorem stubRequest_method_verbatim {v : Type} [DecidableEq v]
    (stubs : List (Entry v)) (m u : String) (kw : Dict v)
    (h : ∀ e ∈ stubs, e.1.method ≠ m) :
    (stubRequest ⟨Strategy.mapping stubs⟩ m u kw).1 =
      ReqOutcome.raised ⟨m, u, kw⟩ := by
  have herr : mappingGetResponse stubs m u kw = Except.error ⟨m, u, kw⟩ :=
    (mappingGetResponse_error_iff stubs m u kw).2
      (fun e he => reqEq_false_of_method_ne _ _ (h e he))
  simp [stubRequest, strategyGetResponseS, mappingGetResponseS, herr]

/-- Witness for the amended C2: a lowercase request against an
uppercase-keyed stub raises. -/
theorem stubRequest_method_verbatim_witness :
    (stubRequest (v := Nat)
        ⟨Strategy.mapping [(⟨"GET", "http://x", []⟩, ⟨200, [], some 7⟩)]⟩
        "get" "http://x" []).1 = ReqOutcome.raised ⟨"get", "http://x", []⟩ :=
  stubRequest_method_verbatim _ _ _ _ (by decide)

/-- C7: `StubTreq.put` and `StubTreq.post` delegate to `request` with the
method fixed to `PUT` respectively `POST` and `data` threaded into the
kwargs, producing the very same outcome and state. -/
theorem stubPut_stubPost_delegate {v : Type} [DecidableEq v]
    (t : StubTreq v) (url : String) (X : v) (kw : Dict v) :
    stubPut t url X kw = stubRequest t "PUT" url (("data", X) :: kw) ∧
      stubPost t url X kw = stubRequest t "POST" url (("data", X) :: kw) :=
  ⟨rfl, rfl⟩

/-- C8: attribute access on `StubTreq` for exactly `get`, `head` and
`delete` yields a callable equal, on every argument pair, to `request`
applied to the uppercased name; any other name raises an attribute error
whose message names the offending attribute. -/
theorem stubGetattr_spec {v : Type} [DecidableEq v] (t : StubTreq v)
    (name : String) :
    ((name = "get" ∨ name = "head" ∨ name = "delete") →
      ∃ f, stubGetattr t name = Except.ok f ∧
        ∀ url kw, f url kw = stubRequest t (strUpper name) url kw)
    ∧ ((name ≠ "get" ∧ name ≠ "head" ∧ name ≠ "delete") →
      stubGetattr t name =
        Except.error ("StubTreq has no attribute " ++ name)) := by
  constructor
  · intro h
    refine ⟨stubRequest t (strUpper name), ?_, fun url kw => rfl⟩
    simp [stubGetattr, h]
  · rintro ⟨h1, h2, h3⟩
    simp [stubGetattr, h1, h2, h3]

/-- Witness for C8: `get` yields the `GET` requester, `options` raises an
error naming `options`. -/
theorem stubGetattr_spec_witness :
    (∃ f, stubGetattr (v := Nat) ⟨Strategy.mapping []⟩ "get" = Except.ok f ∧
      ∀ url kw, f url kw =
        stubRequest ⟨Strategy.mapping []⟩ (strUpper "get") url kw)
    ∧ stubGetattr (v := Nat) ⟨Strategy.mapping []⟩ "options" =
        Except.error ("StubTreq has no attribute " ++ "options") :=
  ⟨(stubGetattr_spec ⟨Strategy.mapping []⟩ "get").1 (Or.inl rfl),
   (stubGetattr_spec ⟨Strategy.mapping []⟩ "options").2 (by decide)⟩

/-- C10: `StubTreq.request` propagates a strategy failure as a raise that
happens before any deferred is built, and returns a fired deferred exactly
when the strategy returned a response. -/
theorem stubRequest_failure_propagation {v : Type} [DecidableEq v]
    (t : StubTreq v) (m u : String) (kw : Dict v) :
    (∀ e, strategyGetResponse t.stubs m u kw = Except.error e →
      (stubRequest t m u kw).1 = ReqOutcome.raised e)
    ∧ (∀ r, strategyGetResponse t.stubs m u kw = Except.ok r →
      (stubRequest t m u kw).1 = ReqOutcome.succeeded r)
    ∧ (∀ r, (stubRequest t m u kw).1 = ReqOutcome.succeeded r →
      strategyGetResponse t.stubs m u kw = Except.ok r) := by
  cases hs : strategyGetResponseS t.stubs m u kw with
  | mk res st =>
    cases res <;> simp [stubRequest, strategyGetResponse, hs]

/-- Witness for C10: a raising request on an empty mapping and a fired
deferred on a matching one. -/
theorem stubRequest_failure_propagation_witness :
    (stubRequest (v := Nat) ⟨Strategy.mapping []⟩ "GET" "u" []).1 =
        ReqOutcome.raised ⟨"GET", "u", []⟩ ∧
      (stubRequest (v := Nat)
        ⟨Strategy.mapping [(⟨"GET", "u", []⟩, ⟨200, [], some 3⟩)]⟩
        "GET" "u" []).1 = ReqOutcome.succeeded ⟨200, [], some 3⟩ :=
  ⟨(stubRequest_failure_propagation _ "GET" "u" []).1 _ (by decide),
   (stubRequest_failure_propagation _ "GET" "u" []).2.1 _ (by decide)⟩
